import Mathlib

set_option linter.all false

/-!
Verification development for the BLE scanner program (`ble_scanner.py`,
class `BLEScanner`).  The Python code is shallowly embedded: the mutable
scanner object becomes the structure `ScannerState`, Python `dict`s become
association lists that preserve insertion order (as Python dicts do),
machine/float timestamps and RSSI readings become `Int`, and the keyboard
handler, sorter, eviction step and view renderers become pure functions.
Python's `sorted` (a stable sort) is embedded as a stable insertion sort
over the same comparison key; `float('-inf')` sort keys are embedded as
`none` in `Option Int`, ordered below every `some`.  List indexing embeds
Python semantics (negative indices wrap, out-of-range raises, modelled by
`Option`).  `math.ceil` over the exact rational value is used for the
signal bar; for the integer inputs reaching it the Python float
computation agrees with the exact one.
-/

inductive SortMode
  | discovery
  | signal
deriving DecidableEq

inductive ViewMode
  | list
  | detail
deriving DecidableEq

/-- Advertisement metadata bundle (`device.metadata` dict); a missing key is `none`. -/
structure Metadata where
  appearance : Option Int
  uuids : Option (List String)
  manufacturer_data : Option (List (Int × List Nat))
deriving DecidableEq

/-- One entry of `self.devices` (the per-device dict built in `scan_devices`). -/
structure DeviceRecord where
  name : String
  address : String
  rssi : Int
  metadata : Metadata
  appearance : String
  services : String
  manufacturer : String
  last_seen : Int
  discovery_time : Int
deriving DecidableEq

/-- `self.bar_length`. -/
def bar_length : Nat := 20

/-- `self.header_height`. -/
def header_height : Int := 5

/-- `self.max_name_length`. -/
def max_name_length : Nat := 20

/-- `self.max_addr_length`. -/
def max_addr_length : Nat := 17

/-- `self.status_width`. -/
def status_width : Nat := 30

/-- First `n` characters of a string (Python slicing `s[:n]`). -/
def strTake (s : String) (n : Nat) : String := String.mk (s.data.take n)

/-- Python `f"{s:<{w}}"`: pad on the right with spaces to width `w`. -/
def padRight (s : String) (w : Nat) : String :=
  s ++ String.mk (List.replicate (w - s.length) ' ')

/-- Pad on the left with zeros to width `w` (Python `{n:04x}` padding part). -/
def padZeros (s : String) (w : Nat) : String :=
  String.mk (List.replicate (w - s.length) '0') ++ s

/-- Lowercase hexadecimal rendering of a natural number. -/
def natToHex (n : Nat) : String := String.mk (Nat.toDigits 16 n)

/-- Python `f"{mfg_id:04x}"`. -/
def hex4 (n : Int) : String := padZeros (natToHex n.toNat) 4

/-- Two lowercase hex digits of one byte (one step of Python `bytes.hex()`). -/
def byteHex (b : Nat) : String :=
  String.mk [Nat.digitChar (b / 16 % 16), Nat.digitChar (b % 16)]

/-- Python `bytes.hex()`. -/
def bytesHex (bs : List Nat) : String := String.join (bs.map byteHex)

/-- `BLEScanner.db_to_bar`: clamp the RSSI into `[0, 100]`, take
`ceil(strength / 100 * bar_length)` filled glyphs and pad with empty glyphs. -/
def db_to_bar (rssi : Int) : String :=
  let strength : Int := min 100 (max 0 (100 + rssi))
  let filled_length : Nat := (strength.toNat * bar_length + 99) / 100
  String.mk (List.replicate filled_length '█' ++
             List.replicate (bar_length - filled_length) '░')

/-- The `appearances` table of `BLEScanner.get_device_appearance`. -/
def appearanceTable : List (Int × String) :=
  [(0, "Unknown"), (64, "Generic Phone"), (128, "Generic Computer"),
   (192, "Generic Watch"), (193, "Sports Watch"), (256, "Generic Tag"),
   (832, "Generic Heart Rate Sensor"), (960, "Generic Blood Pressure")]

/-- `BLEScanner.get_device_appearance`. -/
def get_device_appearance (metadata : Metadata) : String :=
  match metadata.appearance with
  | none => "Unknown"
  | some code =>
      ((appearanceTable.find? (fun p => decide (p.1 = code))).map (fun p => p.2)).getD "Unknown"

/-- `BLEScanner.format_services`. -/
def format_services (metadata : Metadata) : String :=
  match metadata.uuids with
  | none => "No services"
  | some us => strTake (String.intercalate ", " (us.map (fun u => strTake u 8))) 40

/-- `BLEScanner.format_manufacturer`. -/
def format_manufacturer (metadata : Metadata) : String :=
  match metadata.manufacturer_data with
  | none => "No manufacturer data"
  | some [] => "No manufacturer data"
  | some ((mfg_id, data) :: _) =>
      "ID: " ++ hex4 mfg_id ++ ", Data: " ++ strTake (bytesHex data) 20

/-- Comparison on sort keys: `none` stands for Python `float('-inf')`,
below every integer key. -/
def keyLe : Option Int → Option Int → Bool
  | none, _ => true
  | some _, none => false
  | some a, some b => decide (a ≤ b)

/-- The `key` lambda of `sorted` in `BLEScanner.sort_devices`:
`discovery_time` under discovery mode, `-rssi` for active devices and
`float('-inf')` (embedded as `none`) for inactive ones under signal mode. -/
def sortKey (mode : SortMode) (thr now : Int) (d : DeviceRecord) : Option Int :=
  match mode with
  | .discovery => some d.discovery_time
  | .signal => if now - d.last_seen ≤ thr then some (-d.rssi) else none

/-- Stable insertion of one element into a key-sorted list (left elements
stay before later elements with equal keys, as in Python's stable `sorted`). -/
def insertByKey {α : Type} (key : α → Option Int) (x : α) : List α → List α
  | [] => [x]
  | y :: ys => if keyLe (key x) (key y) then x :: y :: ys else y :: insertByKey key x ys

/-- Stable sort by key, embedding Python's stable `sorted(..., key=...)`. -/
def sortByKey {α : Type} (key : α → Option Int) : List α → List α
  | [] => []
  | x :: xs => insertByKey key x (sortByKey key xs)

/-- The activity test `current_time - device['last_seen'] <= self.inactive_threshold`. -/
def activeB (thr now : Int) (d : DeviceRecord) : Bool := decide (now - d.last_seen ≤ thr)

/-- `BLEScanner.sort_devices`: one stable sort of the whole registry by the
mode-dependent key, then a partition (in sorted order) into active and
inactive groups. -/
def sort_devices (mode : SortMode) (thr now : Int)
    (devices : List (String × DeviceRecord)) :
    List (String × DeviceRecord) × List (String × DeviceRecord) :=
  let all_devices := sortByKey (fun p => sortKey mode thr now p.2) devices
  (all_devices.filter (fun p => activeB thr now p.2),
   all_devices.filter (fun p => ! activeB thr now p.2))

/-- The mutable fields of the `BLEScanner` object that the roster, viewport
and input logic touch.  `devices` and `discovery_times` are Python dicts,
embedded as insertion-ordered association lists. -/
structure ScannerState where
  devices : List (String × DeviceRecord)
  discovery_times : List (String × Int)
  selected_device_address : Option String
  view_mode : ViewMode
  sort_mode : SortMode
  scroll_offset : Int
  term_height : Int
  inactive_threshold : Int
  device_timeout : Int
  running : Bool
deriving DecidableEq

/-- `self.term.height - self.header_height`. -/
def contentHeight (st : ScannerState) : Int := st.term_height - header_height

/-- `active_devices + inactive_devices`, the full ordered roster. -/
def sortedRoster (st : ScannerState) (now : Int) : List (String × DeviceRecord) :=
  (sort_devices st.sort_mode st.inactive_threshold now st.devices).1 ++
  (sort_devices st.sort_mode st.inactive_threshold now st.devices).2

/-- Python truthiness of the optional selected address (`None` and `""` are falsy). -/
def truthy : Option String → Bool
  | none => false
  | some s => ! s.isEmpty

/-- Index of the first roster entry whose address equals the selection
(the generator inside `next(...)` in `check_keyboard`). -/
def firstIndex (sel : Option String) : List (String × DeviceRecord) → Option Nat
  | [] => none
  | p :: ps => if some p.1 = sel then some 0 else (firstIndex sel ps).map (· + 1)

/-- `next((i for i, (addr, _) in enumerate(...) if addr == sel), 0)`. -/
def firstIndexD (sel : Option String) (l : List (String × DeviceRecord)) : Nat :=
  (firstIndex sel l).getD 0

/-- Python list indexing `l[i]`: negative indices wrap once from the end,
anything still out of range raises (embedded as `none`). -/
def pyGet {α : Type} (l : List α) (i : Int) : Option α :=
  if 0 ≤ i then l.get? i.toNat
  else if 0 ≤ i + (l.length : Int) then l.get? (i + (l.length : Int)).toNat
  else none

/-- The `'[A'` (up-arrow) branch of `check_keyboard`.  A `none` result is a
raised `IndexError` (selection truthy but roster empty). -/
def upKey (st : ScannerState) (now : Int) : Option ScannerState :=
  if truthy st.selected_device_address then
    let sorted_devices := sortedRoster st now
    let current_index : Nat := firstIndexD st.selected_device_address sorted_devices
    let new_index : Int := max 0 ((current_index : Int) - 1)
    match pyGet sorted_devices new_index with
    | none => none
    | some p =>
        some { st with
                 selected_device_address := some p.1,
                 scroll_offset :=
                   if new_index < st.scroll_offset then new_index else st.scroll_offset }
  else some st

/-- The `'[B'` (down-arrow) branch of `check_keyboard`. -/
def downKey (st : ScannerState) (now : Int) : Option ScannerState :=
  let sorted_devices := sortedRoster st now
  let content_height := contentHeight st
  if sorted_devices = [] then some st
  else
    let current_index : Nat := firstIndexD st.selected_device_address sorted_devices
    let new_index : Int :=
      min ((sorted_devices.length : Int) - 1) ((current_index : Int) + 1)
    match pyGet sorted_devices new_index with
    | none => none
    | some p =>
        some { st with
                 selected_device_address := some p.1,
                 scroll_offset :=
                   if st.scroll_offset + content_height ≤ new_index then
                     max 0 (new_index - content_height + 1)
                   else st.scroll_offset }

/-- The `'[5'` (page-up) branch of `check_keyboard`. -/
def pageUpKey (st : ScannerState) (now : Int) : Option ScannerState :=
  let sorted_devices := sortedRoster st now
  let content_height := contentHeight st
  let so := max 0 (st.scroll_offset - content_height)
  if sorted_devices = [] then some { st with scroll_offset := so }
  else
    match pyGet sorted_devices so with
    | none => none
    | some p =>
        some { st with scroll_offset := so, selected_device_address := some p.1 }

/-- The `'[6'` (page-down) branch of `check_keyboard`. -/
def pageDownKey (st : ScannerState) (now : Int) : Option ScannerState :=
  let sorted_devices := sortedRoster st now
  let content_height := contentHeight st
  let max_scroll := max 0 ((sorted_devices.length : Int) - content_height)
  let so := min max_scroll (st.scroll_offset + content_height)
  if sorted_devices = [] then some { st with scroll_offset := so }
  else
    let visible_start := min so ((sorted_devices.length : Int) - 1)
    match pyGet sorted_devices visible_start with
    | none => none
    | some p =>
        some { st with scroll_offset := so, selected_device_address := some p.1 }

/-- Python dict membership `k in d` on an insertion-ordered association list. -/
def dictMem {β : Type} (l : List (String × β)) (k : String) : Bool :=
  l.any (fun p => decide (p.1 = k))

/-- Python dict assignment `d[k] = v`: update in place (keeping the key's
position) when the key exists, else append. -/
def dictSet {β : Type} (l : List (String × β)) (k : String) (v : β) :
    List (String × β) :=
  if dictMem l k then l.map (fun p => if p.1 = k then (k, v) else p)
  else l ++ [(k, v)]

/-- Python dict lookup with default. -/
def dictGetD {β : Type} (l : List (String × β)) (k : String) (dflt : β) : β :=
  ((l.find? (fun p => decide (p.1 = k))).map (fun p => p.2)).getD dflt

/-- Python dict lookup (`d[k]`, `none` when the key is absent): the mapping
an insertion-ordered association list denotes. -/
def dictGet? {β : Type} (l : List (String × β)) (k : String) : Option β :=
  (l.find? (fun p => decide (p.1 = k))).map (fun p => p.2)

/-- The Enter-key branch of `check_keyboard`: toggle list/detail view only
when the selected address is truthy and present in the registry. -/
def enterKey (st : ScannerState) : ScannerState :=
  match st.selected_device_address with
  | some a =>
      if ! a.isEmpty && dictMem st.devices a then
        { st with view_mode := if st.view_mode = .list then .detail else .list }
      else st
  | none => st

/-- `BLEScanner.check_keyboard` on one buffered key read: the escape
dispatch reads two more characters and recognises only `[A`, `[B`, `[5`,
`[6`; everything else falls through with no state change.  `none` is a
blocking read (too few buffered characters after an escape) or a raised
`IndexError` inside a branch. -/
def check_keyboard (st : ScannerState) (now : Int) : List Char → Option ScannerState
  | [] => some st
  | key :: rest =>
    if key = '\x1b' then
      match rest with
      | c1 :: c2 :: _ =>
          if c1 = '[' ∧ c2 = 'A' then upKey st now
          else if c1 = '[' ∧ c2 = 'B' then downKey st now
          else if c1 = '[' ∧ c2 = '5' then pageUpKey st now
          else if c1 = '[' ∧ c2 = '6' then pageDownKey st now
          else some st
      | _ => none
    else if key = '\x0d' ∨ key = '\x0a' then some (enterKey st)
    else if key = 's' then
      some { st with
               sort_mode := if st.sort_mode = .discovery then .signal else .discovery }
    else if key = 'q' then some { st with view_mode := .list }
    else if key = '\x03' then some { st with running := false }
    else some st

/-- The device-timeout filter of `scan_devices`:
`{k: v for k, v in devices.items() if now - v['last_seen'] <= timeout}`. -/
def evict (devices : List (String × DeviceRecord)) (now timeout : Int) :
    List (String × DeviceRecord) :=
  devices.filter (fun p => decide (now - p.2.last_seen ≤ timeout))

/-- The eviction phase of one `scan_devices` cycle: drop timed-out records,
prune `discovery_times`, and pull the scroll offset up by the number of
removed records (floored at zero) when anything was removed. -/
def evictStep (st : ScannerState) (now : Int) : ScannerState :=
  let current_devices := evict st.devices now st.device_timeout
  let removed_count : Int :=
    (st.devices.length : Int) - (current_devices.length : Int)
  { st with
      devices := current_devices,
      discovery_times := st.discovery_times.filter (fun p => dictMem current_devices p.1),
      scroll_offset :=
        if 0 < removed_count then max 0 (st.scroll_offset - removed_count)
        else st.scroll_offset }

/-- One discovery observation handed over by the scanning backend. -/
structure Observation where
  address : String
  name : Option String
  rssi : Int
  metadata : Metadata
deriving DecidableEq

/-- The per-device body of the ingest loop of `scan_devices`. -/
def applyObservation (st : ScannerState) (o : Observation) (now : Int) : ScannerState :=
  let discovery_times :=
    if dictMem st.discovery_times o.address then st.discovery_times
    else dictSet st.discovery_times o.address now
  let record : DeviceRecord :=
    { name := match o.name with
              | none => "Unknown"
              | some s => if s.isEmpty then "Unknown" else s,
      address := o.address,
      rssi := o.rssi,
      metadata := o.metadata,
      appearance := get_device_appearance o.metadata,
      services := format_services o.metadata,
      manufacturer := format_manufacturer o.metadata,
      last_seen := now,
      discovery_time := dictGetD discovery_times o.address now }
  { st with discovery_times := discovery_times,
            devices := dictSet st.devices o.address record }

/-- The ingest loop of `scan_devices` over the cycle's observation batch. -/
def ingest (st : ScannerState) (obs : List Observation) (now : Int) : ScannerState :=
  obs.foldl (fun s o => applyObservation s o now) st

/-- `BLEScanner.get_device_age`. -/
def get_device_age (now last_seen : Int) : String :=
  let age := now - last_seen
  if age < 60 then toString age ++ "s"
  else if age < 3600 then toString (age / 60) ++ "m"
  else toString (age / 3600) ++ "h"

/-- One formatted active-device row of `display_list_view` (terminal
styling, which is backend output, is not part of the line content). -/
def activeLine (d : DeviceRecord) : String :=
  padRight (strTake d.name max_name_length) max_name_length ++ " | " ++
  padRight d.address max_addr_length ++ " | " ++
  db_to_bar d.rssi ++ " | " ++
  padRight (toString d.rssi ++ " dBm") status_width

/-- One formatted inactive-device row of `display_list_view`: the bar is a
stale-glyph run of the same width. -/
def inactiveLine (now : Int) (d : DeviceRecord) : String :=
  padRight (strTake d.name max_name_length) max_name_length ++ " | " ++
  padRight d.address max_addr_length ++ " | " ++
  String.mk (List.replicate bar_length '.') ++ " | " ++
  padRight ("Last seen " ++ get_device_age now d.last_seen ++ " ago") status_width

/-- The `display_lines` list built by `display_list_view`: a group header
followed by the group's rows, for each non-empty group, or a single
placeholder line when both groups are empty. -/
def displayLines (st : ScannerState) (now : Int) : List String :=
  let active_devices := (sort_devices st.sort_mode st.inactive_threshold now st.devices).1
  let inactive_devices := (sort_devices st.sort_mode st.inactive_threshold now st.devices).2
  let alines : List String :=
    if active_devices = [] then []
    else ("\nActive Devices (" ++ toString active_devices.length ++ "):") ::
         active_devices.map (fun p => activeLine p.2)
  let ilines : List String :=
    if inactive_devices = [] then []
    else ("\nInactive Devices (" ++ toString inactive_devices.length ++ "):") ::
         inactive_devices.map (fun p => inactiveLine now p.2)
  let all := alines ++ ilines
  if all = [] then ["\nNo devices found"] else all

/-- The state effect of `BLEScanner.display_list_view`: clamp the scroll
offset into `[0, max(0, len(display_lines) - content_height)]`. -/
def display_list_view (st : ScannerState) (now : Int) : ScannerState :=
  let lines := displayLines st now
  let content_height := contentHeight st
  let max_scroll := max 0 ((lines.length : Int) - content_height)
  { st with scroll_offset := max 0 (min st.scroll_offset max_scroll) }

/-- `BLEScanner.display_detail_view` as the list of printed lines: nothing
is printed when the selected address is absent from the registry. -/
def display_detail_view (st : ScannerState) (now : Int) : List String :=
  match st.selected_device_address with
  | none => []
  | some a =>
    match (st.devices.find? (fun p => decide (p.1 = a))).map (fun p => p.2) with
    | none => []
    | some d =>
      let device_age := now - d.last_seen
      [ "\nDetailed View for Selected Device:",
        "Device Name: " ++ d.name,
        "Address: " ++ d.address,
        if device_age ≤ st.inactive_threshold then
          "Signal Strength: " ++ db_to_bar d.rssi ++ " (" ++ toString d.rssi ++ " dBm)"
        else
          "Signal Strength: No current signal (Last seen " ++
            get_device_age now d.last_seen ++ " ago)",
        "Device Type: " ++ d.appearance,
        "Services: " ++ d.services,
        "Manufacturer: " ++ d.manufacturer,
        "\nPress q to return to list view" ]

/-- One refresh cycle of the `scan_devices` loop after the keyboard poll:
ingest the cycle's observations, evict timed-out records, re-sort, and (in
list view, on a rendered frame) clamp the scroll offset.  No step of the
cycle touches the selected address. -/
def refreshStep (st : ScannerState) (obs : List Observation) (now : Int) : ScannerState :=
  let st1 := ingest st obs now
  let st2 := evictStep st1 now
  if st2.view_mode = .list then display_list_view st2 now else st2

/-- Number of filled glyphs in a rendered signal bar. -/
def countFilled (s : String) : Nat := s.data.count '█'

/-- Pairwise check that a roster group is ordered by descending value of `f`. -/
def descBy {α : Type} (f : α → Int) : List α → Bool
  | [] => true
  | [_] => true
  | x :: y :: rest => decide (f y ≤ f x) && descBy f (y :: rest)

/-- A minimal metadata bundle (all keys absent). -/
def mdNone : Metadata := ⟨none, none, none⟩

/-- Concrete device record used by the concrete-input theorems. -/
def mkRec (addr : String) (rssi last_seen discovery_time : Int) : DeviceRecord :=
  { name := "Unknown", address := addr, rssi := rssi, metadata := mdNone,
    appearance := "Unknown", services := "No services",
    manufacturer := "No manufacturer data",
    last_seen := last_seen, discovery_time := discovery_time }

/-- Whether the selected address is present in the registry. -/
def selPresent (st : ScannerState) : Bool :=
  match st.selected_device_address with
  | some a => dictMem st.devices a
  | none => false

/-- Concrete scanner state builder for the concrete-input theorems: the code's
constant thresholds (`inactive_threshold = 15`, `device_timeout = 300`). -/
def mkSt (devices : List (String × DeviceRecord)) (sel : Option String)
    (mode : SortMode) (so th : Int) : ScannerState :=
  { devices := devices,
    discovery_times := devices.map (fun p => (p.1, p.2.discovery_time)),
    selected_device_address := sel,
    view_mode := .list, sort_mode := mode,
    scroll_offset := so, term_height := th,
    inactive_threshold := 15, device_timeout := 300, running := true }

/-- Registry with two inactive devices whose insertion order disagrees with
last-seen-descending order. -/
def c1reg : List (String × DeviceRecord) :=
  [("aa", mkRec "aa" (-50) 0 0), ("bb", mkRec "bb" (-50) 10 1)]

/-- Two active devices with equal signal strength, inserted `aa` first. -/
def c2regA : List (String × DeviceRecord) :=
  [("aa", mkRec "aa" (-50) 100 0), ("bb", mkRec "bb" (-50) 100 1)]

/-- The same two records as `c2regA`, inserted in the opposite order. -/
def c2regB : List (String × DeviceRecord) :=
  [("bb", mkRec "bb" (-50) 100 1), ("aa", mkRec "aa" (-50) 100 0)]

/-- State whose selected address `zz` is absent from the (non-empty) registry. -/
def c3st : ScannerState :=
  mkSt [("aa", mkRec "aa" (-40) 100 0)] (some "zz") .discovery 0 30

/-- Two-device roster with the selection on the last entry. -/
def c5st : ScannerState :=
  mkSt [("aa", mkRec "aa" (-40) 100 0), ("bb", mkRec "bb" (-50) 100 1)]
    (some "bb") .discovery 0 30

/-- Two-device roster with the selection on the first entry. -/
def c5wst : ScannerState :=
  mkSt [("aa", mkRec "aa" (-40) 100 0), ("bb", mkRec "bb" (-50) 100 1)]
    (some "aa") .discovery 0 30

/-- State holding one record stale beyond the device timeout at time 400. -/
def c6st : ScannerState :=
  mkSt [("aa", mkRec "aa" (-40) 0 0), ("bb", mkRec "bb" (-50) 100 1)]
    (some "bb") .discovery 2 30

/-- Two-device roster, second entry selected, scroll offset 1. -/
def c7st : ScannerState :=
  mkSt [("aa", mkRec "aa" (-40) 100 0), ("bb", mkRec "bb" (-50) 100 1)]
    (some "bb") .discovery 1 30

/-- Two-device roster on a short terminal (content height 3). -/
def c9st : ScannerState :=
  mkSt [("aa", mkRec "aa" (-40) 100 0), ("bb", mkRec "bb" (-50) 100 1)]
    (some "bb") .discovery 0 8

/-- State whose selected address is stale (absent from the registry). -/
def c10st : ScannerState :=
  mkSt [("aa", mkRec "aa" (-40) 100 0)] (some "zz") .discovery 0 30

theorem keyLe_refl (a : Option Int) : keyLe a a = true := by
  cases a <;> simp [keyLe]

theorem keyLe_total (a b : Option Int) : keyLe a b = true ∨ keyLe b a = true := by
  cases a <;> cases b <;> simp [keyLe] <;> omega

theorem keyLe_trans {a b c : Option Int} (h1 : keyLe a b = true)
    (h2 : keyLe b c = true) : keyLe a c = true := by
  cases a <;> cases b <;> cases c <;> simp_all [keyLe] <;> omega

theorem mem_insertByKey {α : Type} (key : α → Option Int) (x z : α) (l : List α) :
    z ∈ insertByKey key x l ↔ z = x ∨ z ∈ l := by
  induction l with
  | nil => simp [insertByKey]
  | cons y ys ih =>
      simp only [insertByKey]
      split
      · simp [List.mem_cons]
      · simp [List.mem_cons, ih]
        tauto

theorem pairwise_insertByKey {α : Type} (key : α → Option Int) (x : α) (l : List α)
    (h : l.Pairwise (fun a b => keyLe (key a) (key b) = true)) :
    (insertByKey key x l).Pairwise (fun a b => keyLe (key a) (key b) = true) := by
  induction l with
  | nil => simp [insertByKey]
  | cons y ys ih =>
      rw [List.pairwise_cons] at h
      obtain ⟨hy, hys⟩ := h
      simp only [insertByKey]
      split
      · rename_i hxy
        refine List.Pairwise.cons ?_ (List.Pairwise.cons hy hys)
        intro z hz
        rcases List.mem_cons.mp hz with rfl | hz'
        · exact hxy
        · exact keyLe_trans hxy (hy z hz')
      · rename_i hxy
        refine List.Pairwise.cons ?_ (ih hys)
        intro z hz
        rcases (mem_insertByKey key x z ys).mp hz with hzx | hz'
        · rw [hzx]
          rcases keyLe_total (key x) (key y) with h' | h'
          · exact absurd h' hxy
          · exact h'
        · exact hy z hz'

theorem pairwise_sortByKey {α : Type} (key : α → Option Int) (l : List α) :
    (sortByKey key l).Pairwise (fun a b => keyLe (key a) (key b) = true) := by
  induction l with
  | nil => exact List.Pairwise.nil
  | cons x xs ih => exact pairwise_insertByKey key x _ ih

theorem filter_insertByKey {α : Type} (key : α → Option Int) (x : α) (k : Option Int)
    (l : List α) :
    (insertByKey key x l).filter (fun z => decide (key z = k))
      = if key x = k then x :: l.filter (fun z => decide (key z = k))
        else l.filter (fun z => decide (key z = k)) := by
  induction l with
  | nil =>
      simp only [insertByKey, List.filter]
      split <;> simp_all
  | cons y ys ih =>
      simp only [insertByKey]
      split
      · rename_i hxy
        by_cases hk : key x = k
        · simp [List.filter_cons, hk]
        · simp [List.filter_cons, hk]
      · rename_i hxy
        by_cases hk : key x = k
        · have hyk : ¬ (key y = k) := fun h => hxy (by rw [hk, h]; exact keyLe_refl k)
          simp [List.filter_cons, hyk, hk, ih]
        · simp [List.filter_cons, ih, hk]

theorem filter_key_sortByKey {α : Type} (key : α → Option Int) (k : Option Int)
    (l : List α) :
    (sortByKey key l).filter (fun z => decide (key z = k))
      = l.filter (fun z => decide (key z = k)) := by
  induction l with
  | nil => rfl
  | cons x xs ih =>
      simp only [sortByKey]
      rw [filter_insertByKey]
      by_cases hk : key x = k
      · simp [List.filter_cons, hk, ih]
      · simp [List.filter_cons, hk, ih]

theorem signal_inactive_key (thr now : Int) (p : String × DeviceRecord) :
    (! activeB thr now p.2) = decide (sortKey .signal thr now p.2 = none) := by
  by_cases h : now - p.2.last_seen ≤ thr <;> simp [activeB, sortKey, h]

theorem signal_active_key (thr now r : Int) (p : String × DeviceRecord) :
    (decide (p.2.rssi = r) && activeB thr now p.2)
      = decide (sortKey .signal thr now p.2 = some (-r)) := by
  by_cases h : now - p.2.last_seen ≤ thr
  · simp only [activeB, sortKey, h, decide_True, if_pos h, Bool.and_true]
    by_cases h2 : p.2.rssi = r
    · simp [h2]
    · simp [h2]
  · simp [activeB, sortKey, h]

theorem signal_active_key' (thr now r : Int) (p : String × DeviceRecord) :
    (activeB thr now p.2 && decide (p.2.rssi = r))
      = decide (sortKey .signal thr now p.2 = some (-r)) := by
  rw [Bool.and_comm]
  exact signal_active_key thr now r p

/-- C1 (counterexample): a registry of two inactive devices, last seen at
times 0 and 10, whose inactive group under `BySignalStrength` comes out in
registry order `[0, 10]` — not last-seen descending, refuting the claim
that the inactive group is always ordered by last-seen descending. -/
theorem C1_counterexample :
    ((sort_devices .signal 15 100 c1reg).2.map (fun p => p.2.last_seen) = [0, 10]) ∧
    descBy (fun p : String × DeviceRecord => p.2.last_seen)
      ((sort_devices .signal 15 100 c1reg).2) = false := by
  decide

/-- C1 (amended): the inactive group is ordered by the sort key of the full
stable sort, not by last-seen: under `BySignalStrength` every inactive
record shares the bottom key, so the group keeps registry insertion order;
under `ByDiscoveryTime` the group is ordered by first-discovered ascending.
The sort mode therefore does affect the inactive ordering. -/
theorem C1_amended (thr now : Int) (reg : List (String × DeviceRecord)) :
    (sort_devices .signal thr now reg).2
        = reg.filter (fun p => ! activeB thr now p.2) ∧
    List.Pairwise (fun p q : String × DeviceRecord =>
        p.2.discovery_time ≤ q.2.discovery_time)
      ((sort_devices .discovery thr now reg).2) := by
  constructor
  · simp only [sort_devices]
    rw [List.filter_congr (fun x _ => signal_inactive_key thr now x),
        filter_key_sortByKey]
    exact List.filter_congr (fun x _ => (signal_inactive_key thr now x).symm)
  · simp only [sort_devices]
    have hs := pairwise_sortByKey
      (fun p : String × DeviceRecord => sortKey .discovery thr now p.2) reg
    refine (hs.filter (fun p => ! activeB thr now p.2)).imp ?_
    intro a b h
    simpa [sortKey, keyLe] using h

/-- C2 (counterexample): two registries holding exactly the same
identity-to-record pairs (a permutation of each other, keys distinct) with
equal signal strengths produce different active orderings under
`BySignalStrength`, and the second ordering is not identity-ascending:
ties are broken by registry insertion order, not by identity. -/
theorem C2_counterexample :
    (∀ k : String, dictGet? c2regA k = dictGet? c2regB k) ∧
    c2regA.Perm c2regB ∧
    (sort_devices .signal 15 100 c2regA).1.map (fun p => p.1) = ["aa", "bb"] ∧
    (sort_devices .signal 15 100 c2regB).1.map (fun p => p.1) = ["bb", "aa"] := by
  refine ⟨?_, ?_, by decide, by decide⟩
  · intro k
    by_cases h1 : k = "aa"
    · subst h1; decide
    · by_cases h2 : k = "bb"
      · subst h2; decide
      · have h1' : ("aa" : String) ≠ k := fun h => h1 h.symm
        have h2' : ("bb" : String) ≠ k := fun h => h2 h.symm
        simp [dictGet?, c2regA, c2regB, List.find?, h1', h2']
  · simp only [c2regA, c2regB]
    exact List.Perm.swap _ _ _

/-- C2 (amended): under `BySignalStrength` the active group is ordered by
signal strength descending, and entries with equal signal strength keep
their registry insertion order (stable sort); determinism holds for
identical insertion-ordered registry contents, not for merely equal
mappings. -/
theorem C2_amended (thr now : Int) (reg : List (String × DeviceRecord)) :
    List.Pairwise (fun p q : String × DeviceRecord => q.2.rssi ≤ p.2.rssi)
      ((sort_devices .signal thr now reg).1) ∧
    ∀ r : Int,
      (sort_devices .signal thr now reg).1.filter (fun p => decide (p.2.rssi = r))
        = reg.filter (fun p => activeB thr now p.2 && decide (p.2.rssi = r)) := by
  constructor
  · simp only [sort_devices]
    have hs := pairwise_sortByKey
      (fun p : String × DeviceRecord => sortKey .signal thr now p.2) reg
    refine (hs.filter (fun p => activeB thr now p.2)).imp_of_mem ?_
    intro a b ha hb h
    have ha' : activeB thr now a.2 = true := (List.mem_filter.mp ha).2
    have hb' : activeB thr now b.2 = true := (List.mem_filter.mp hb).2
    simp only [activeB, decide_eq_true_eq] at ha' hb'
    simp only [sortKey, if_pos ha', if_pos hb', keyLe, decide_eq_true_eq] at h
    omega
  · intro r
    simp only [sort_devices]
    rw [List.filter_filter,
        List.filter_congr (fun x _ => signal_active_key thr now r x),
        filter_key_sortByKey]
    exact List.filter_congr (fun x _ => (signal_active_key' thr now r x).symm)

theorem applyObservation_selected (st : ScannerState) (o : Observation) (now : Int) :
    (applyObservation st o now).selected_device_address = st.selected_device_address := rfl

theorem evictStep_selected (st : ScannerState) (now : Int) :
    (evictStep st now).selected_device_address = st.selected_device_address := rfl

theorem display_list_view_selected (st : ScannerState) (now : Int) :
    (display_list_view st now).selected_device_address = st.selected_device_address := rfl

theorem ingest_selected (now : Int) (obs : List Observation) (st : ScannerState) :
    (ingest st obs now).selected_device_address = st.selected_device_address := by
  induction obs generalizing st with
  | nil => rfl
  | cons o os ih =>
      simpa [ingest, List.foldl_cons, applyObservation_selected]
        using ih (applyObservation st o now)

/-- C3 (counterexample): a refresh cycle on a state whose selected address
`zz` is absent from the non-empty post-refresh roster leaves the selection
at `zz` instead of moving it to the first roster entry: the refresh loop
performs no selection reconcile. -/
theorem C3_counterexample :
    sortedRoster (refreshStep c3st [] 100) 100 ≠ [] ∧
    (∀ p ∈ sortedRoster (refreshStep c3st [] 100) 100, p.1 ≠ "zz") ∧
    (refreshStep c3st [] 100).selected_device_address = some "zz" := by
  decide

/-- C3 (amended): the refresh cycle (ingest, evict, sort, list-view
re-render) never changes the selected address; a stale or absent selection
persists across refreshes (only the arrow-key handlers reinterpret a
missing selection, treating its index as 0). -/
theorem C3_amended (st : ScannerState) (obs : List Observation) (now : Int) :
    (refreshStep st obs now).selected_device_address = st.selected_device_address := by
  simp only [refreshStep]
  split
  · rw [display_list_view_selected, evictStep_selected, ingest_selected]
  · rw [evictStep_selected, ingest_selected]

/-- C4: after every list-view re-render the scroll offset lies in
`[0, max(0, totalLines - contentHeight)]`, for every state (hence every
roster size and terminal height). -/
theorem C4 (st : ScannerState) (now : Int) :
    0 ≤ (display_list_view st now).scroll_offset ∧
    (display_list_view st now).scroll_offset
      ≤ max 0 (((displayLines st now).length : Int) - contentHeight st) := by
  simp only [display_list_view]
  constructor
  · omega
  · omega

/-- C6: eviction removes exactly the records whose age exceeds the device
timeout, keeps every surviving record unchanged, and decreases the scroll
offset by the number of removed records, floored at zero. -/
theorem C6 (st : ScannerState) (now : Int) (h : 0 ≤ st.scroll_offset) :
    (∀ p : String × DeviceRecord,
        p ∈ (evictStep st now).devices ↔
          p ∈ st.devices ∧ now - p.2.last_seen ≤ st.device_timeout) ∧
    (evictStep st now).scroll_offset
      = max 0 (st.scroll_offset -
          ((st.devices.length : Int) - ((evictStep st now).devices.length : Int))) := by
  constructor
  · intro p
    simp [evictStep, evict, List.mem_filter]
  · have hlen : (evict st.devices now st.device_timeout).length ≤ st.devices.length :=
      List.length_filter_le _ _
    by_cases hc :
        (0 : Int) < (st.devices.length : Int)
          - ((evict st.devices now st.device_timeout).length : Int)
    · simp only [evictStep, if_pos hc]
    · simp only [evictStep, if_neg hc]
      omega

/-- C6 (witness): at time 400 the state `c6st` (one record stale beyond the
300-second timeout) satisfies the eviction scroll-compensation equation. -/
theorem C6_witness :
    0 ≤ c6st.scroll_offset ∧
    (evictStep c6st 400).scroll_offset
      = max 0 (c6st.scroll_offset -
          ((c6st.devices.length : Int) - ((evictStep c6st 400).devices.length : Int))) :=
  ⟨by decide, (C6 c6st 400 (by decide)).2⟩

/-- C7: the Home and End escape sequences (`ESC [ H`, `ESC [ F`, and the
`ESC [ 1 ~` / `ESC [ 4 ~` variants) fall through `check_keyboard`'s escape
dispatch with no state change: on a state with scroll offset 1 and the
second entry selected, the state is returned unchanged, although the
program's own header line advertises Home/End first/last. -/
theorem C7_home_end_ignored :
    check_keyboard c7st 100 ['\x1b', '[', 'H'] = some c7st ∧
    check_keyboard c7st 100 ['\x1b', '[', 'F'] = some c7st ∧
    check_keyboard c7st 100 ['\x1b', '[', '1'] = some c7st ∧
    check_keyboard c7st 100 ['\x1b', '[', '4'] = some c7st ∧
    c7st.scroll_offset = 1 ∧ c7st.selected_device_address = some "bb" := by
  decide

theorem bar_shape (f : Nat) (hf : f ≤ bar_length) :
    (String.mk (List.replicate f '█' ++ List.replicate (bar_length - f) '░')).length
        = bar_length ∧
    countFilled
        (String.mk (List.replicate f '█' ++ List.replicate (bar_length - f) '░')) = f := by
  constructor
  · simp [String.length, List.length_append]
    omega
  · simp [countFilled, List.count_append, List.count_replicate]

/-- C8: for every integer signal value the rendered bar has exactly
`bar_length` glyphs, and its number of filled glyphs is
`ceil((clamp(signal, -100, 0) + 100) / 100 * bar_length)` (stated as the
equivalent natural-number ceiling division). -/
theorem C8 (rssi : Int) :
    (db_to_bar rssi).length = bar_length ∧
    countFilled (db_to_bar rssi)
      = ((min 0 (max (-100) rssi) + 100).toNat * bar_length + 99) / 100 := by
  have hf : ((min 100 (max 0 (100 + rssi))).toNat * bar_length + 99) / 100 ≤ bar_length := by
    simp only [bar_length]
    omega
  obtain ⟨h1, h2⟩ := bar_shape _ hf
  refine ⟨by simpa [db_to_bar] using h1, ?_⟩
  have h3 : countFilled (db_to_bar rssi)
      = ((min 100 (max 0 (100 + rssi))).toNat * bar_length + 99) / 100 := by
    simpa [db_to_bar] using h2
  rw [h3]
  have : (min 100 (max 0 (100 + rssi))).toNat = (min 0 (max (-100) rssi) + 100).toNat := by
    omega
  rw [this]

/-- C10: when the selected address is absent from the registry the Enter
key leaves the state unchanged and the detail view renders nothing, so no
path dereferences a registry record through a stale selection. -/
theorem C10 (st : ScannerState) (now : Int) (h : selPresent st = false) :
    enterKey st = st ∧ display_detail_view st now = [] := by
  cases hsel : st.selected_device_address with
  | none =>
      refine ⟨?_, ?_⟩
      · simp [enterKey, hsel]
      · simp [display_detail_view, hsel]
  | some a =>
      have hmem : dictMem st.devices a = false := by
        simpa [selPresent, hsel] using h
      have hfind : st.devices.find? (fun p => decide (p.1 = a)) = none := by
        rw [List.find?_eq_none]
        intro x hx
        simp only [decide_eq_true_eq]
        intro hxa
        have hx' : dictMem st.devices a = true := by
          simp only [dictMem, List.any_eq_true]
          exact ⟨x, hx, by simp [hxa]⟩
        rw [hx'] at hmem
        exact Bool.noConfusion hmem
      refine ⟨?_, ?_⟩
      · simp [enterKey, hsel, hmem]
      · simp [display_detail_view, hsel, hfind]

/-- C10 (witness): the state `c10st` has a stale selection `zz`; Enter
leaves it unchanged and the detail view is empty. -/
theorem C10_witness :
    selPresent c10st = false ∧
    (enterKey c10st = c10st ∧ display_detail_view c10st 100 = []) :=
  ⟨by decide, C10 c10st 100 (by decide)⟩

theorem get?_fst (l : List (String × DeviceRecord)) (i : Nat) (a : String)
    (h : (l.map Prod.fst).get? i = some a) :
    ∃ q, l.get? i = some q ∧ q.1 = a := by
  rw [List.get?_eq_getElem?, List.getElem?_map] at h
  cases hq : l[i]? with
  | none => rw [hq] at h; simp at h
  | some q =>
      rw [hq] at h
      exact ⟨q, by rw [List.get?_eq_getElem?, hq], by simpa using h⟩

theorem fst_get? (l : List (String × DeviceRecord)) (i : Nat)
    (q : String × DeviceRecord) (h : l.get? i = some q) :
    (l.map Prod.fst).get? i = some q.1 := by
  rw [List.get?_eq_getElem?, List.getElem?_map, ← List.get?_eq_getElem?, h]
  rfl

theorem firstIndex_of_get (l : List (String × DeviceRecord)) (i : Nat) (a : String)
    (hnd : (l.map Prod.fst).Nodup)
    (hget : (l.map Prod.fst).get? i = some a) :
    firstIndex (some a) l = some i := by
  induction l generalizing i with
  | nil => simp at hget
  | cons p ps ih =>
      rw [List.map_cons, List.nodup_cons] at hnd
      cases i with
      | zero =>
          have hpa : p.1 = a := by
            rw [List.map_cons] at hget
            simpa using hget
          simp [firstIndex, hpa]
      | succ n =>
          have hget' : (ps.map Prod.fst).get? n = some a := by
            rw [List.map_cons] at hget
            simpa using hget
          have hpa : ¬ (p.1 = a) := by
            intro hpa
            exact hnd.1 (hpa ▸ List.get?_mem hget')
          simp [firstIndex, hpa, ih n hnd.2 hget']

/-- C5 (counterexample): on a two-entry roster with the selection on the
last entry, Down is saturated (selection stays on the last entry) and the
following Up moves the selection to the first entry, so the Down-then-Up
round trip does not restore the original selection. -/
theorem C5_counterexample :
    sortedRoster c5st 100 ≠ [] ∧
    c5st.selected_device_address = some "bb" ∧
    ((downKey c5st 100).bind (fun s => upKey s 100)).map
        (fun s => (s.selected_device_address, s.scroll_offset))
      = some (some "aa", 0) := by
  decide

/-- C5 (amended): on a non-empty unchanged roster with distinct non-empty
addresses, if the starting selection occurs in the roster at an index that
is not the last one, and both that index and its successor lie inside the
visible window (`scrollOffset ≤ index` and
`index + 1 < scrollOffset + contentHeight`), then Down followed by Up
restores the entire state, in particular the selection and scroll offset. -/
theorem C5_amended (st : ScannerState) (now : Int) (a : String) (ci : Nat)
    (hsel : st.selected_device_address = some a)
    (hkey : ((sortedRoster st now).map Prod.fst).get? ci = some a)
    (hnd : ((sortedRoster st now).map Prod.fst).Nodup)
    (hne : ∀ p ∈ sortedRoster st now, p.1.isEmpty = false)
    (hlast : ci + 1 < (sortedRoster st now).length)
    (hlo : st.scroll_offset ≤ (ci : Int))
    (hhi : (ci : Int) + 1 < st.scroll_offset + contentHeight st) :
    (downKey st now).bind (fun s => upKey s now) = some st := by
  obtain ⟨pa, hpa, hpa1⟩ := get?_fst (sortedRoster st now) ci a hkey
  have hidx : firstIndex (some a) (sortedRoster st now) = some ci :=
    firstIndex_of_get _ ci a hnd hkey
  have hne0 : ¬ (sortedRoster st now = []) := by
    intro h0
    rw [h0] at hlast
    simp at hlast
  have hpb : (sortedRoster st now).get? (ci + 1)
      = some ((sortedRoster st now).get ⟨ci + 1, hlast⟩) := List.get?_eq_get hlast
  have hdown : downKey st now = some { st with
      selected_device_address := some ((sortedRoster st now).get ⟨ci + 1, hlast⟩).1 } := by
    simp only [downKey]
    rw [if_neg hne0, hsel]
    have h1 : firstIndexD (some a) (sortedRoster st now) = ci := by
      rw [firstIndexD, hidx]
      rfl
    rw [h1]
    have h2 : min (((sortedRoster st now).length : Int) - 1) ((ci : Int) + 1)
        = (ci : Int) + 1 := by
      omega
    rw [h2]
    have h3 : pyGet (sortedRoster st now) ((ci : Int) + 1)
        = some ((sortedRoster st now).get ⟨ci + 1, hlast⟩) := by
      rw [pyGet, if_pos (by omega : (0 : Int) ≤ (ci : Int) + 1)]
      have h4 : ((ci : Int) + 1).toNat = ci + 1 := by omega
      rw [h4, hpb]
    rw [h3]
    simp only [Option.some.injEq]
    rw [if_neg (by omega : ¬ (st.scroll_offset + contentHeight st ≤ (ci : Int) + 1))]
  rw [hdown]
  show upKey { st with
      selected_device_address := some ((sortedRoster st now).get ⟨ci + 1, hlast⟩).1 } now
    = some st
  have hroster : sortedRoster { st with
      selected_device_address :=
        some ((sortedRoster st now).get ⟨ci + 1, hlast⟩).1 } now
      = sortedRoster st now := rfl
  have hmemb : (sortedRoster st now).get ⟨ci + 1, hlast⟩ ∈ sortedRoster st now :=
    List.get_mem _ _ _
  have htr : truthy (some ((sortedRoster st now).get ⟨ci + 1, hlast⟩).1) = true := by
    rw [truthy, hne _ hmemb]
    rfl
  have hkey2 : ((sortedRoster st now).map Prod.fst).get? (ci + 1)
      = some ((sortedRoster st now).get ⟨ci + 1, hlast⟩).1 :=
    fst_get? _ _ _ hpb
  have hidx2 : firstIndex (some ((sortedRoster st now).get ⟨ci + 1, hlast⟩).1)
      (sortedRoster st now) = some (ci + 1) :=
    firstIndex_of_get _ (ci + 1) _ hnd hkey2
  simp only [upKey, hroster]
  rw [if_pos htr]
  have h5 : firstIndexD (some ((sortedRoster st now).get ⟨ci + 1, hlast⟩).1)
      (sortedRoster st now) = ci + 1 := by
    rw [firstIndexD, hidx2]
    rfl
  rw [h5]
  have h6 : max 0 (((ci + 1 : Nat) : Int) - 1) = (ci : Int) := by
    push_cast
    omega
  rw [h6]
  have h7 : pyGet (sortedRoster st now) (ci : Int) = some pa := by
    rw [pyGet, if_pos (by omega : (0 : Int) ≤ (ci : Int))]
    have h8 : ((ci : Int)).toNat = ci := by omega
    rw [h8, hpa]
  rw [h7]
  simp only [Option.some.injEq]
  rw [if_neg (by omega : ¬ ((ci : Int) < st.scroll_offset)), hpa1, ← hsel]

/-- C5 (witness): on the two-entry roster of `c5wst` with the first entry
selected and the window large enough, Down then Up restores the state. -/
theorem C5_witness :
    (downKey c5wst 100).bind (fun s => upKey s 100) = some c5wst :=
  C5_amended c5wst 100 "aa" 0 (by decide) (by decide) (by decide) (by decide)
    (by decide) (by decide) (by decide)

/-- C9: on a non-empty roster (with the touched indices in range and a
non-negative page-down target), PageUp moves the scroll offset up by one
content height and selects the entry at the new scroll offset, and
PageDown moves it down (clamped to `max(0, rosterLength - contentHeight)`)
and selects the entry at `min(new scroll offset, rosterLength - 1)`. -/
theorem C9 (st : ScannerState) (now : Int) (aU aD : String)
    (hne : sortedRoster st now ≠ [])
    (hU : ((sortedRoster st now).map Prod.fst).get?
        (max 0 (st.scroll_offset - contentHeight st)).toNat = some aU)
    (hD0 : 0 ≤ st.scroll_offset + contentHeight st)
    (hD : ((sortedRoster st now).map Prod.fst).get?
        (min (min (max 0 (((sortedRoster st now).length : Int) - contentHeight st))
                  (st.scroll_offset + contentHeight st))
             (((sortedRoster st now).length : Int) - 1)).toNat = some aD) :
    pageUpKey st now = some { st with
        scroll_offset := max 0 (st.scroll_offset - contentHeight st),
        selected_device_address := some aU } ∧
    pageDownKey st now = some { st with
        scroll_offset :=
          min (max 0 (((sortedRoster st now).length : Int) - contentHeight st))
              (st.scroll_offset + contentHeight st),
        selected_device_address := some aD } := by
  constructor
  · obtain ⟨q, hq, hq1⟩ := get?_fst _ _ _ hU
    simp only [pageUpKey]
    rw [if_neg hne]
    have h1 : pyGet (sortedRoster st now) (max 0 (st.scroll_offset - contentHeight st))
        = some q := by
      rw [pyGet, if_pos (le_max_left 0 (st.scroll_offset - contentHeight st))]
      exact hq
    rw [h1]
    simp only [Option.some.injEq]
    rw [hq1]
  · obtain ⟨q, hq, hq1⟩ := get?_fst _ _ _ hD
    simp only [pageDownKey]
    rw [if_neg hne]
    have hl : 0 < (sortedRoster st now).length := List.length_pos.mpr hne
    have hvs0 : (0 : Int) ≤
        min (min (max 0 (((sortedRoster st now).length : Int) - contentHeight st))
                 (st.scroll_offset + contentHeight st))
            (((sortedRoster st now).length : Int) - 1) := by
      omega
    have h2 : pyGet (sortedRoster st now)
        (min (min (max 0 (((sortedRoster st now).length : Int) - contentHeight st))
                  (st.scroll_offset + contentHeight st))
             (((sortedRoster st now).length : Int) - 1)) = some q := by
      rw [pyGet, if_pos hvs0]
      exact hq
    rw [h2]
    simp only [Option.some.injEq]
    rw [hq1]

/-- C9 (witness): on the two-entry roster of `c9st` (content height 3) both
paging commands land on the entry at the computed offset. -/
theorem C9_witness :
    pageUpKey c9st 100 = some { c9st with
        scroll_offset := max 0 (c9st.scroll_offset - contentHeight c9st),
        selected_device_address := some "aa" } ∧
    pageDownKey c9st 100 = some { c9st with
        scroll_offset :=
          min (max 0 (((sortedRoster c9st 100).length : Int) - contentHeight c9st))
              (c9st.scroll_offset + contentHeight c9st),
        selected_device_address := some "aa" } :=
  C9 c9st 100 "aa" "aa" (by decide) (by decide) (by decide) (by decide)
